import Mathlib

/-!
Shallow embedding of the Black-Scholes pricing module of the repository
(`src/projects/p01_option_pricer.py`) over real arithmetic, together with
theorems settling the specification claims about it.

The Python module computes with IEEE doubles through numpy/scipy; following
the specification's own reading ("exactly in real arithmetic"), the embedding
uses `ℝ`, with `Real.log`, `Real.sqrt`, `Real.exp` for `np.log`, `np.sqrt`,
`np.exp`, and the standard normal distribution functions of `scipy.stats.norm`
modelled by the genuine mathematical objects: the Gaussian density and its
cumulative integral.
-/

open MeasureTheory ProbabilityTheory Real Set

noncomputable section

/-- Standard normal probability density function, the model of
`scipy.stats.norm.pdf`: the Gaussian density with mean 0 and variance 1. -/
def norm_pdf (x : ℝ) : ℝ := gaussianPDFReal 0 1 x

/-- Standard normal cumulative distribution function, the model of
`scipy.stats.norm.cdf`: the integral of the standard Gaussian density over
`(-∞, x]`. -/
def norm_cdf (x : ℝ) : ℝ := ∫ t in Iic x, gaussianPDFReal 0 1 t

/-- Embedding of `black_scholes` (src/projects/p01_option_pricer.py, lines
7-35).  The Python function computes `d1`, `d2`, branches on the string
`option_type` (the exact string "call" selects the call formula, every other
value the put formula) and returns the tuple `(price, d1, d2)`. -/
def black_scholes (S K T r sigma : ℝ) (option_type : String) : ℝ × ℝ × ℝ :=
  let d1 := (Real.log (S / K) + (r + 0.5 * sigma ^ 2) * T) / (sigma * Real.sqrt T)
  let d2 := d1 - sigma * Real.sqrt T
  let price :=
    if option_type = "call" then
      S * norm_cdf d1 - K * Real.exp (-r * T) * norm_cdf d2
    else
      K * Real.exp (-r * T) * norm_cdf (-d2) - S * norm_cdf (-d1)
  (price, d1, d2)

/-- Embedding of `calculate_greeks` (src/projects/p01_option_pricer.py, lines
37-56).  Delta branches on `option_type == "call"`, Gamma is common, Theta is
the call expression with `r * K * exp (-r*T)` added afterwards exactly when
`option_type == "put"`.  Returns `(delta, gamma, theta)`. -/
def calculate_greeks (S K T r sigma : ℝ) (option_type : String) : ℝ × ℝ × ℝ :=
  let d1 := (Real.log (S / K) + (r + 0.5 * sigma ^ 2) * T) / (sigma * Real.sqrt T)
  let d2 := d1 - sigma * Real.sqrt T
  let delta := if option_type = "call" then norm_cdf d1 else norm_cdf d1 - 1
  let gamma := norm_pdf d1 / (S * sigma * Real.sqrt T)
  let theta0 := -(S * norm_pdf d1 * sigma) / (2 * Real.sqrt T)
      - r * K * Real.exp (-r * T) * norm_cdf d2
  let theta := if option_type = "put" then theta0 + r * K * Real.exp (-r * T) else theta0
  (delta, gamma, theta)

/-- Embedding of `np.linspace(start, stop, num)` with the default
`endpoint=True` semantics used at line 122: `num` values
`start + (stop - start) * i / (num - 1)` for `i = 0, ..., num - 1`. -/
def linspace (start stop : ℝ) (num : ℕ) : List ℝ :=
  (List.range num).map fun i : ℕ => start + (stop - start) * (i : ℝ) / ((num : ℝ) - 1)

/-- Embedding of the payoff-curve computation in `render`
(src/projects/p01_option_pricer.py, lines 122-126):
`spot_range = np.linspace(S * 0.5, S * 1.5, 100)` followed by
`np.maximum(spot_range - K, 0) - price` for a call and
`np.maximum(K - spot_range, 0) - price` otherwise.  The point count is kept
as a parameter `num`; the `render` call instantiates it with 100. -/
def payoff_curve (S K price : ℝ) (option_type : String) (num : ℕ) : List (ℝ × ℝ) :=
  (linspace (S * 0.5) (S * 1.5) num).map fun s =>
    (s, if option_type = "call" then max (s - K) 0 - price else max (K - s) 0 - price)

end

lemma norm_pdf_nonneg (x : ℝ) : 0 ≤ norm_pdf x :=
  gaussianPDFReal_nonneg 0 1 x

lemma integrable_std_gaussian : Integrable (gaussianPDFReal 0 1) :=
  integrable_gaussianPDFReal 0 1

lemma integral_std_gaussian : ∫ t, gaussianPDFReal 0 1 t = 1 :=
  integral_gaussianPDFReal_eq_one 0 one_ne_zero

lemma std_gaussian_neg (t : ℝ) : gaussianPDFReal 0 1 (-t) = gaussianPDFReal 0 1 t := by
  simp [gaussianPDFReal, neg_sq]

lemma norm_cdf_add_Ioi (x : ℝ) :
    norm_cdf x + ∫ t in Ioi x, gaussianPDFReal 0 1 t = 1 := by
  rw [norm_cdf, intervalIntegral.integral_Iic_add_Ioi integrable_std_gaussian.integrableOn
    integrable_std_gaussian.integrableOn, integral_std_gaussian]

/-- Reflection identity of the standard normal CDF: `Φ(-x) = 1 - Φ(x)`. -/
lemma norm_cdf_neg (x : ℝ) : norm_cdf (-x) = 1 - norm_cdf x := by
  have h : norm_cdf (-x) = ∫ t in Ioi x, gaussianPDFReal 0 1 t := by
    rw [norm_cdf, ← integral_comp_neg_Ioi]
    exact setIntegral_congr_fun measurableSet_Ioi fun t _ => std_gaussian_neg t
  have h2 := norm_cdf_add_Ioi x
  linarith

lemma norm_cdf_nonneg (x : ℝ) : 0 ≤ norm_cdf x :=
  setIntegral_nonneg measurableSet_Iic fun t _ => gaussianPDFReal_nonneg 0 1 t

lemma norm_cdf_le_one (x : ℝ) : norm_cdf x ≤ 1 := by
  have h0 : 0 ≤ ∫ t in Ioi x, gaussianPDFReal 0 1 t :=
    setIntegral_nonneg measurableSet_Ioi fun t _ => gaussianPDFReal_nonneg 0 1 t
  have h2 := norm_cdf_add_Ioi x
  linarith

lemma norm_cdf_zero : norm_cdf 0 = 1 / 2 := by
  have h := norm_cdf_neg 0
  rw [neg_zero] at h
  linarith

lemma getD_map_range {α : Type*} (f : ℕ → α) (d : α) {n i : ℕ} (hi : i < n) :
    ((List.range n).map f).getD i d = f i := by
  rw [List.getD_eq_getElem?_getD]
  simp [List.getElem?_map, List.getElem?_range hi]

lemma length_payoff_curve (S K price : ℝ) (ot : String) (n : ℕ) :
    (payoff_curve S K price ot n).length = n := by
  simp [payoff_curve, linspace]

lemma getD_payoff_curve (S K price : ℝ) (ot : String) {n i : ℕ} (hi : i < n) :
    (payoff_curve S K price ot n).getD i (0, 0) =
      (S * 0.5 + S * i / ((n : ℝ) - 1),
       if ot = "call" then max (S * 0.5 + S * i / ((n : ℝ) - 1) - K) 0 - price
       else max (K - (S * 0.5 + S * i / ((n : ℝ) - 1))) 0 - price) := by
  rw [payoff_curve, linspace, List.map_map, getD_map_range _ _ hi]
  have hS15 : S * 1.5 - S * 0.5 = S := by ring
  simp only [Function.comp_apply, hS15]

lemma black_scholes_call_eq (S K T r sigma : ℝ) :
    black_scholes S K T r sigma "call" =
      (S * norm_cdf ((Real.log (S / K) + (r + 0.5 * sigma ^ 2) * T) / (sigma * Real.sqrt T)) -
         K * Real.exp (-r * T) *
           norm_cdf ((Real.log (S / K) + (r + 0.5 * sigma ^ 2) * T) / (sigma * Real.sqrt T) -
             sigma * Real.sqrt T),
       (Real.log (S / K) + (r + 0.5 * sigma ^ 2) * T) / (sigma * Real.sqrt T),
       (Real.log (S / K) + (r + 0.5 * sigma ^ 2) * T) / (sigma * Real.sqrt T) -
         sigma * Real.sqrt T) := by
  simp [black_scholes]

lemma black_scholes_put_eq (S K T r sigma : ℝ) :
    black_scholes S K T r sigma "put" =
      (K * Real.exp (-r * T) *
           norm_cdf (-((Real.log (S / K) + (r + 0.5 * sigma ^ 2) * T) / (sigma * Real.sqrt T) -
             sigma * Real.sqrt T)) -
         S * norm_cdf (-((Real.log (S / K) + (r + 0.5 * sigma ^ 2) * T) /
           (sigma * Real.sqrt T))),
       (Real.log (S / K) + (r + 0.5 * sigma ^ 2) * T) / (sigma * Real.sqrt T),
       (Real.log (S / K) + (r + 0.5 * sigma ^ 2) * T) / (sigma * Real.sqrt T) -
         sigma * Real.sqrt T) := by
  simp [black_scholes]

/-- C1: for every input with spot, strike, timeToMaturity and volatility all
positive, `black_scholes` returns `d1` and `d2` given by the Black-Scholes
standardized-score formulas, the call price
`S * Φ(d1) - K * exp (-r*T) * Φ(d2)` when the option type is "call", and the
put price `K * exp (-r*T) * Φ(-d2) - S * Φ(-d1)` when it is "put". -/
theorem black_scholes_formula_correct (S K T r sigma d1 d2 : ℝ)
    (hS : 0 < S) (hK : 0 < K) (hT : 0 < T) (hsig : 0 < sigma)
    (hd1 : d1 = (Real.log (S / K) + (r + 0.5 * sigma ^ 2) * T) / (sigma * Real.sqrt T))
    (hd2 : d2 = d1 - sigma * Real.sqrt T) :
    black_scholes S K T r sigma "call" =
      (S * norm_cdf d1 - K * Real.exp (-r * T) * norm_cdf d2, d1, d2) ∧
    black_scholes S K T r sigma "put" =
      (K * Real.exp (-r * T) * norm_cdf (-d2) - S * norm_cdf (-d1), d1, d2) := by
  subst hd2 hd1
  exact ⟨by simp [black_scholes], by simp [black_scholes]⟩

/-- Witness for C1 at spot 100, strike 100, maturity 1, rate 1/20,
volatility 1/5. -/
theorem black_scholes_formula_correct_witness :
    (0:ℝ) < 100 ∧ (0:ℝ) < 1 ∧ (0:ℝ) < 1/5 ∧
    (black_scholes 100 100 1 (1/20) (1/5) "call" =
      (100 * norm_cdf ((Real.log ((100:ℝ) / 100) + (1/20 + 0.5 * (1/5) ^ 2) * 1) /
          ((1/5) * Real.sqrt 1)) -
        100 * Real.exp (-(1/20) * 1) *
          norm_cdf ((Real.log ((100:ℝ) / 100) + (1/20 + 0.5 * (1/5) ^ 2) * 1) /
              ((1/5) * Real.sqrt 1) - (1/5) * Real.sqrt 1),
       (Real.log ((100:ℝ) / 100) + (1/20 + 0.5 * (1/5) ^ 2) * 1) / ((1/5) * Real.sqrt 1),
       (Real.log ((100:ℝ) / 100) + (1/20 + 0.5 * (1/5) ^ 2) * 1) / ((1/5) * Real.sqrt 1) -
         (1/5) * Real.sqrt 1) ∧
     black_scholes 100 100 1 (1/20) (1/5) "put" =
      (100 * Real.exp (-(1/20) * 1) *
          norm_cdf (-((Real.log ((100:ℝ) / 100) + (1/20 + 0.5 * (1/5) ^ 2) * 1) /
              ((1/5) * Real.sqrt 1) - (1/5) * Real.sqrt 1)) -
        100 * norm_cdf (-((Real.log ((100:ℝ) / 100) + (1/20 + 0.5 * (1/5) ^ 2) * 1) /
            ((1/5) * Real.sqrt 1))),
       (Real.log ((100:ℝ) / 100) + (1/20 + 0.5 * (1/5) ^ 2) * 1) / ((1/5) * Real.sqrt 1),
       (Real.log ((100:ℝ) / 100) + (1/20 + 0.5 * (1/5) ^ 2) * 1) / ((1/5) * Real.sqrt 1) -
         (1/5) * Real.sqrt 1)) :=
  ⟨by norm_num, by norm_num, by norm_num,
   black_scholes_formula_correct 100 100 1 (1/20) (1/5) _ _ (by norm_num) (by norm_num)
     (by norm_num) (by norm_num) rfl rfl⟩

/-- Counterexample for C2: at the invalid input timeToMaturity = 0 the pricer
does not reject or raise; it enters the formula and returns the numeric tuple
`(0, 0, 0)` (under real semantics with division by zero equal to zero). -/
theorem black_scholes_zero_maturity_returns_value :
    black_scholes 100 100 0 (1/20) (1/5) "call" = (0, 0, 0) := by
  simp [black_scholes]

/-- Amended C2: no operation of the module validates its parameters or raises
an `InvalidParameter` error; the formulas are entered on every input.  In
particular, at timeToMaturity = 0 — an invalid input — both `black_scholes`
and `calculate_greeks` return explicit numeric tuples for every spot, strike,
rate, volatility and option-type string, instead of raising. -/
theorem operations_enter_formula_on_invalid_input (S K r sigma : ℝ) (ot : String) :
    black_scholes S K 0 r sigma ot =
      (if ot = "call" then (S - K) * (1/2) else (K - S) * (1/2), 0, 0) ∧
    calculate_greeks S K 0 r sigma ot =
      (if ot = "call" then 1/2 else 1/2 - 1, 0,
       if ot = "put" then -(r * K * (1/2)) + r * K else -(r * K * (1/2))) := by
  constructor
  · rcases eq_or_ne ot "call" with hc | hc <;>
      simp [black_scholes, hc, norm_cdf_zero] <;> ring
  · rcases eq_or_ne ot "call" with hc | hc
    · simp [calculate_greeks, hc, norm_cdf_zero]
    · rcases eq_or_ne ot "put" with hp | hp <;>
        simp [calculate_greeks, hc, hp, norm_cdf_zero]

/-- C3: for every valid input, `calculate_greeks` returns Delta `Φ(d1)` for a
call and `Φ(d1) - 1` for a put, Gamma `φ(d1)/(S * sigma * sqrt T)`, and Theta
equal to the base expression for a call with `r * K * exp (-r*T)` added for a
put, with the same `d1`, `d2` as the pricer. -/
theorem calculate_greeks_formula_correct (S K T r sigma d1 d2 : ℝ)
    (hS : 0 < S) (hK : 0 < K) (hT : 0 < T) (hsig : 0 < sigma)
    (hd1 : d1 = (Real.log (S / K) + (r + 0.5 * sigma ^ 2) * T) / (sigma * Real.sqrt T))
    (hd2 : d2 = d1 - sigma * Real.sqrt T) :
    calculate_greeks S K T r sigma "call" =
      (norm_cdf d1, norm_pdf d1 / (S * sigma * Real.sqrt T),
       -(S * norm_pdf d1 * sigma) / (2 * Real.sqrt T) -
         r * K * Real.exp (-r * T) * norm_cdf d2) ∧
    calculate_greeks S K T r sigma "put" =
      (norm_cdf d1 - 1, norm_pdf d1 / (S * sigma * Real.sqrt T),
       -(S * norm_pdf d1 * sigma) / (2 * Real.sqrt T) -
         r * K * Real.exp (-r * T) * norm_cdf d2 + r * K * Real.exp (-r * T)) := by
  subst hd2 hd1
  exact ⟨by simp [calculate_greeks], by simp [calculate_greeks]⟩

/-- Witness for C3 at spot 100, strike 100, maturity 1, rate 1/20,
volatility 1/5. -/
theorem calculate_greeks_formula_correct_witness :
    (0:ℝ) < 100 ∧ (0:ℝ) < 1 ∧ (0:ℝ) < 1/5 ∧
    (calculate_greeks 100 100 1 (1/20) (1/5) "call" =
      (norm_cdf ((Real.log ((100:ℝ) / 100) + (1/20 + 0.5 * (1/5) ^ 2) * 1) /
          ((1/5) * Real.sqrt 1)),
       norm_pdf ((Real.log ((100:ℝ) / 100) + (1/20 + 0.5 * (1/5) ^ 2) * 1) /
          ((1/5) * Real.sqrt 1)) / (100 * (1/5) * Real.sqrt 1),
       -(100 * norm_pdf ((Real.log ((100:ℝ) / 100) + (1/20 + 0.5 * (1/5) ^ 2) * 1) /
            ((1/5) * Real.sqrt 1)) * (1/5)) / (2 * Real.sqrt 1) -
         (1/20) * 100 * Real.exp (-(1/20) * 1) *
           norm_cdf ((Real.log ((100:ℝ) / 100) + (1/20 + 0.5 * (1/5) ^ 2) * 1) /
               ((1/5) * Real.sqrt 1) - (1/5) * Real.sqrt 1)) ∧
     calculate_greeks 100 100 1 (1/20) (1/5) "put" =
      (norm_cdf ((Real.log ((100:ℝ) / 100) + (1/20 + 0.5 * (1/5) ^ 2) * 1) /
          ((1/5) * Real.sqrt 1)) - 1,
       norm_pdf ((Real.log ((100:ℝ) / 100) + (1/20 + 0.5 * (1/5) ^ 2) * 1) /
          ((1/5) * Real.sqrt 1)) / (100 * (1/5) * Real.sqrt 1),
       -(100 * norm_pdf ((Real.log ((100:ℝ) / 100) + (1/20 + 0.5 * (1/5) ^ 2) * 1) /
            ((1/5) * Real.sqrt 1)) * (1/5)) / (2 * Real.sqrt 1) -
         (1/20) * 100 * Real.exp (-(1/20) * 1) *
           norm_cdf ((Real.log ((100:ℝ) / 100) + (1/20 + 0.5 * (1/5) ^ 2) * 1) /
               ((1/5) * Real.sqrt 1) - (1/5) * Real.sqrt 1) +
         (1/20) * 100 * Real.exp (-(1/20) * 1))) :=
  ⟨by norm_num, by norm_num, by norm_num,
   calculate_greeks_formula_correct 100 100 1 (1/20) (1/5) _ _ (by norm_num) (by norm_num)
     (by norm_num) (by norm_num) rfl rfl⟩

/-- C4: put-call parity — for every valid parameter set, the call price minus
the put price equals `S - K * exp (-r*T)` exactly, in real arithmetic. -/
theorem put_call_parity (S K T r sigma : ℝ)
    (hS : 0 < S) (hK : 0 < K) (hT : 0 < T) (hsig : 0 < sigma) :
    (black_scholes S K T r sigma "call").1 - (black_scholes S K T r sigma "put").1 =
      S - K * Real.exp (-r * T) := by
  rw [black_scholes_call_eq, black_scholes_put_eq]
  dsimp only
  rw [norm_cdf_neg, norm_cdf_neg]
  ring

/-- Witness for C4 at spot 100, strike 100, maturity 1, rate 1/20,
volatility 1/5. -/
theorem put_call_parity_witness :
    (0:ℝ) < 100 ∧ (0:ℝ) < 1 ∧ (0:ℝ) < 1/5 ∧
    (black_scholes 100 100 1 (1/20) (1/5) "call").1 -
        (black_scholes 100 100 1 (1/20) (1/5) "put").1 =
      100 - 100 * Real.exp (-(1/20) * 1) :=
  ⟨by norm_num, by norm_num, by norm_num,
   put_call_parity 100 100 1 (1/20) (1/5) (by norm_num) (by norm_num) (by norm_num)
     (by norm_num)⟩

/-- C5: with at least two points, the payoff curve has exactly `num` entries;
entry `i` pairs the spot value `S * 0.5 + S * i / (num - 1)` — so the spots
are evenly spaced with step `S / (num - 1)`, starting at `S * 0.5` and ending
at `S * 1.5` — with net profit `max (s - K) 0 - price` for a call and
`max (K - s) 0 - price` for a put. -/
theorem payoff_curve_points_spec (S K price : ℝ) (n : ℕ) (hn : 2 ≤ n) :
    (payoff_curve S K price "call" n).length = n ∧
    (payoff_curve S K price "put" n).length = n ∧
    (∀ i : ℕ, i < n →
      (payoff_curve S K price "call" n).getD i (0, 0) =
        (S * 0.5 + S * (i : ℝ) / ((n : ℝ) - 1),
         max (S * 0.5 + S * (i : ℝ) / ((n : ℝ) - 1) - K) 0 - price)) ∧
    (∀ i : ℕ, i < n →
      (payoff_curve S K price "put" n).getD i (0, 0) =
        (S * 0.5 + S * (i : ℝ) / ((n : ℝ) - 1),
         max (K - (S * 0.5 + S * (i : ℝ) / ((n : ℝ) - 1))) 0 - price)) ∧
    ((payoff_curve S K price "call" n).getD 0 (0, 0)).1 = S * 0.5 ∧
    ((payoff_curve S K price "call" n).getD (n - 1) (0, 0)).1 = S * 1.5 ∧
    (∀ i : ℕ, i + 1 < n →
      ((payoff_curve S K price "call" n).getD (i + 1) (0, 0)).1 -
        ((payoff_curve S K price "call" n).getD i (0, 0)).1 = S / ((n : ℝ) - 1)) := by
  have h2 : (2:ℝ) ≤ (n : ℝ) := by exact_mod_cast hn
  have hne : (n : ℝ) - 1 ≠ 0 := by linarith
  have hcall : ∀ i : ℕ, i < n →
      (payoff_curve S K price "call" n).getD i (0, 0) =
        (S * 0.5 + S * (i : ℝ) / ((n : ℝ) - 1),
         max (S * 0.5 + S * (i : ℝ) / ((n : ℝ) - 1) - K) 0 - price) := by
    intro i hi
    rw [getD_payoff_curve S K price "call" hi]
    simp
  refine ⟨length_payoff_curve S K price "call" n, length_payoff_curve S K price "put" n,
    hcall, ?_, ?_, ?_, ?_⟩
  · intro i hi
    rw [getD_payoff_curve S K price "put" hi]
    simp
  · rw [hcall 0 (by omega)]
    simp
  · rw [hcall (n - 1) (by omega)]
    have hc : ((n - 1 : ℕ) : ℝ) = (n : ℝ) - 1 := by
      rw [Nat.cast_sub (by omega : 1 ≤ n)]
      norm_num
    dsimp only
    rw [hc, mul_div_assoc, div_self hne, mul_one]
    ring
  · intro i hi
    rw [hcall (i + 1) (by omega), hcall i (by omega)]
    dsimp only
    push_cast
    field_simp
    ring

/-- Witness for C5 at spot 100, strike 100, premium 10, two points. -/
theorem payoff_curve_points_spec_witness :
    2 ≤ 2 ∧
    ((payoff_curve 100 100 10 "call" 2).length = 2 ∧
     (payoff_curve 100 100 10 "put" 2).length = 2 ∧
     (∀ i : ℕ, i < 2 →
       (payoff_curve 100 100 10 "call" 2).getD i (0, 0) =
         (100 * 0.5 + 100 * (i : ℝ) / (((2 : ℕ) : ℝ) - 1),
          max (100 * 0.5 + 100 * (i : ℝ) / (((2 : ℕ) : ℝ) - 1) - 100) 0 - 10)) ∧
     (∀ i : ℕ, i < 2 →
       (payoff_curve 100 100 10 "put" 2).getD i (0, 0) =
         (100 * 0.5 + 100 * (i : ℝ) / (((2 : ℕ) : ℝ) - 1),
          max (100 - (100 * 0.5 + 100 * (i : ℝ) / (((2 : ℕ) : ℝ) - 1))) 0 - 10)) ∧
     ((payoff_curve 100 100 10 "call" 2).getD 0 (0, 0)).1 = 100 * 0.5 ∧
     ((payoff_curve 100 100 10 "call" 2).getD (2 - 1) (0, 0)).1 = 100 * 1.5 ∧
     (∀ i : ℕ, i + 1 < 2 →
       ((payoff_curve 100 100 10 "call" 2).getD (i + 1) (0, 0)).1 -
         ((payoff_curve 100 100 10 "call" 2).getD i (0, 0)).1 = 100 / (((2 : ℕ) : ℝ) - 1))) :=
  ⟨by norm_num, payoff_curve_points_spec 100 100 10 2 (by norm_num)⟩

/-- C6: with at least two points and a positive spot, the sequence of
spot-at-maturity values of the payoff curve is strictly increasing and the
sequence has exactly `num` entries. -/
theorem payoff_curve_strictly_increasing (S K price : ℝ) (ot : String) (n : ℕ)
    (hn : 2 ≤ n) (hS : 0 < S) :
    List.Pairwise (· < ·) ((payoff_curve S K price ot n).map Prod.fst) ∧
    (payoff_curve S K price ot n).length = n := by
  refine ⟨?_, length_payoff_curve S K price ot n⟩
  have h2 : (2:ℝ) ≤ (n : ℝ) := by exact_mod_cast hn
  have hc : (0:ℝ) < (n : ℝ) - 1 := by linarith
  rw [payoff_curve, List.map_map]
  have hfst : (Prod.fst ∘ fun s : ℝ =>
      (s, if ot = "call" then max (s - K) 0 - price else max (K - s) 0 - price)) = id := rfl
  rw [hfst, List.map_id, linspace, List.pairwise_map]
  refine (List.pairwise_lt_range n).imp fun {i j} hij => ?_
  have hij2 : (i : ℝ) < (j : ℝ) := by exact_mod_cast hij
  have hba : S * 1.5 - S * 0.5 = S := by ring
  rw [hba]
  have hnum : S * (i : ℝ) < S * (j : ℝ) := by nlinarith
  have hstep : S * (i : ℝ) * ((n : ℝ) - 1)⁻¹ < S * (j : ℝ) * ((n : ℝ) - 1)⁻¹ :=
    mul_lt_mul_of_pos_right hnum (inv_pos.2 hc)
  rw [div_eq_mul_inv, div_eq_mul_inv]
  exact add_lt_add_left hstep _

/-- Witness for C6 at spot 100, strike 100, premium 10, two points, call. -/
theorem payoff_curve_strictly_increasing_witness :
    2 ≤ 2 ∧ (0:ℝ) < 100 ∧
    (List.Pairwise (· < ·) ((payoff_curve 100 100 10 "call" 2).map Prod.fst) ∧
     (payoff_curve 100 100 10 "call" 2).length = 2) :=
  ⟨by norm_num, by norm_num,
   payoff_curve_strictly_increasing 100 100 10 "call" 2 (by norm_num) (by norm_num)⟩

/-- C7: for every valid input, the call Delta lies in [0, 1] and the put
Delta lies in [-1, 0]. -/
theorem delta_bounds (S K T r sigma : ℝ)
    (hS : 0 < S) (hK : 0 < K) (hT : 0 < T) (hsig : 0 < sigma) :
    (0 ≤ (calculate_greeks S K T r sigma "call").1 ∧
      (calculate_greeks S K T r sigma "call").1 ≤ 1) ∧
    (-1 ≤ (calculate_greeks S K T r sigma "put").1 ∧
      (calculate_greeks S K T r sigma "put").1 ≤ 0) := by
  have hcall : (calculate_greeks S K T r sigma "call").1 =
      norm_cdf ((Real.log (S / K) + (r + 0.5 * sigma ^ 2) * T) / (sigma * Real.sqrt T)) := by
    simp [calculate_greeks]
  have hput : (calculate_greeks S K T r sigma "put").1 =
      norm_cdf ((Real.log (S / K) + (r + 0.5 * sigma ^ 2) * T) / (sigma * Real.sqrt T)) - 1 := by
    simp [calculate_greeks]
  have h1 := norm_cdf_nonneg
    ((Real.log (S / K) + (r + 0.5 * sigma ^ 2) * T) / (sigma * Real.sqrt T))
  have h2 := norm_cdf_le_one
    ((Real.log (S / K) + (r + 0.5 * sigma ^ 2) * T) / (sigma * Real.sqrt T))
  rw [hcall, hput]
  constructor <;> constructor <;> linarith

/-- Witness for C7 at spot 100, strike 100, maturity 1, rate 1/20,
volatility 1/5. -/
theorem delta_bounds_witness :
    (0:ℝ) < 100 ∧ (0:ℝ) < 1 ∧ (0:ℝ) < 1/5 ∧
    ((0 ≤ (calculate_greeks 100 100 1 (1/20) (1/5) "call").1 ∧
      (calculate_greeks 100 100 1 (1/20) (1/5) "call").1 ≤ 1) ∧
     (-1 ≤ (calculate_greeks 100 100 1 (1/20) (1/5) "put").1 ∧
      (calculate_greeks 100 100 1 (1/20) (1/5) "put").1 ≤ 0)) :=
  ⟨by norm_num, by norm_num, by norm_num,
   delta_bounds 100 100 1 (1/20) (1/5) (by norm_num) (by norm_num) (by norm_num)
     (by norm_num)⟩

/-- C8: Gamma is identical for a call and a put with the same parameters. -/
theorem gamma_call_put_identical (S K T r sigma : ℝ)
    (hS : 0 < S) (hK : 0 < K) (hT : 0 < T) (hsig : 0 < sigma) :
    (calculate_greeks S K T r sigma "call").2.1 =
      (calculate_greeks S K T r sigma "put").2.1 := rfl

/-- Witness for C8 at spot 100, strike 100, maturity 1, rate 1/20,
volatility 1/5. -/
theorem gamma_call_put_identical_witness :
    (0:ℝ) < 100 ∧ (0:ℝ) < 1 ∧ (0:ℝ) < 1/5 ∧
    (calculate_greeks 100 100 1 (1/20) (1/5) "call").2.1 =
      (calculate_greeks 100 100 1 (1/20) (1/5) "put").2.1 :=
  ⟨by norm_num, by norm_num, by norm_num,
   gamma_call_put_identical 100 100 1 (1/20) (1/5) (by norm_num) (by norm_num) (by norm_num)
     (by norm_num)⟩

/-- C9: the pricer and the sensitivity engine are deterministic pure
functions of their parameters: two calls with componentwise identical inputs
return identical results. -/
theorem pricer_and_greeks_deterministic (S K T r sigma S2 K2 T2 r2 sigma2 : ℝ)
    (ot ot2 : String) (hS : S = S2) (hK : K = K2) (hT : T = T2) (hr : r = r2)
    (hsig : sigma = sigma2) (ho : ot = ot2) :
    black_scholes S K T r sigma ot = black_scholes S2 K2 T2 r2 sigma2 ot2 ∧
    calculate_greeks S K T r sigma ot = calculate_greeks S2 K2 T2 r2 sigma2 ot2 := by
  subst hS hK hT hr hsig ho
  exact ⟨rfl, rfl⟩

/-- Witness for C9 with two literally identical calls. -/
theorem pricer_and_greeks_deterministic_witness :
    (100:ℝ) = 100 ∧ ("call":String) = "call" ∧
    (black_scholes 100 100 1 (1/20) (1/5) "call" =
       black_scholes 100 100 1 (1/20) (1/5) "call" ∧
     calculate_greeks 100 100 1 (1/20) (1/5) "call" =
       calculate_greeks 100 100 1 (1/20) (1/5) "call") :=
  ⟨rfl, rfl,
   pricer_and_greeks_deterministic 100 100 1 (1/20) (1/5) 100 100 1 (1/20) (1/5)
     "call" "call" rfl rfl rfl rfl rfl rfl⟩

/-- Counterexample for C10: the option-type string "x" (neither "call" nor
"put") receives the put Delta but not the put Theta: its Theta differs from
the Theta computed for "put" with identical parameters, because the Theta
put-adjustment in `calculate_greeks` fires only on the exact string "put". -/
theorem greeks_other_string_not_full_put :
    (calculate_greeks 100 100 1 (1/20) (1/5) "x").1 =
      (calculate_greeks 100 100 1 (1/20) (1/5) "put").1 ∧
    (calculate_greeks 100 100 1 (1/20) (1/5) "x").2.2 ≠
      (calculate_greeks 100 100 1 (1/20) (1/5) "put").2.2 := by
  refine ⟨rfl, ?_⟩
  have h1 : (calculate_greeks 100 100 1 (1/20) (1/5) "x").2.2 =
      -(100 * norm_pdf ((Real.log ((100:ℝ) / 100) + (1/20 + 0.5 * (1/5) ^ 2) * 1) /
          ((1/5) * Real.sqrt 1)) * (1/5)) / (2 * Real.sqrt 1) -
        (1/20) * 100 * Real.exp (-(1/20) * 1) *
          norm_cdf ((Real.log ((100:ℝ) / 100) + (1/20 + 0.5 * (1/5) ^ 2) * 1) /
              ((1/5) * Real.sqrt 1) - (1/5) * Real.sqrt 1) := by
    simp [calculate_greeks]
  have h2 : (calculate_greeks 100 100 1 (1/20) (1/5) "put").2.2 =
      -(100 * norm_pdf ((Real.log ((100:ℝ) / 100) + (1/20 + 0.5 * (1/5) ^ 2) * 1) /
          ((1/5) * Real.sqrt 1)) * (1/5)) / (2 * Real.sqrt 1) -
        (1/20) * 100 * Real.exp (-(1/20) * 1) *
          norm_cdf ((Real.log ((100:ℝ) / 100) + (1/20 + 0.5 * (1/5) ^ 2) * 1) /
              ((1/5) * Real.sqrt 1) - (1/5) * Real.sqrt 1) +
        (1/20) * 100 * Real.exp (-(1/20) * 1) := by
    simp [calculate_greeks]
  rw [h1, h2]
  intro h
  have he := Real.exp_pos (-(1/20 : ℝ) * 1)
  linarith

/-- Amended C10: every option_type value other than exactly "call" is priced
as a put by `black_scholes` and receives the put Delta from
`calculate_greeks` (the string discriminator is never rejected); the put
Theta adjustment, however, applies only to the exact string "put" — any
other non-"call" string receives the call Theta. -/
theorem non_call_strings_treated_as_put_except_theta (S K T r sigma : ℝ) (ot : String)
    (hne : ot ≠ "call") :
    black_scholes S K T r sigma ot = black_scholes S K T r sigma "put" ∧
    (calculate_greeks S K T r sigma ot).1 = (calculate_greeks S K T r sigma "put").1 ∧
    (ot ≠ "put" →
      (calculate_greeks S K T r sigma ot).2.2 =
        (calculate_greeks S K T r sigma "call").2.2) := by
  refine ⟨?_, ?_, fun hp => ?_⟩
  · simp [black_scholes, hne]
  · simp [calculate_greeks, hne]
  · simp [calculate_greeks, hp]

/-- Witness for the amended C10 at the option-type string "x". -/
theorem non_call_strings_treated_as_put_except_theta_witness :
    ("x" : String) ≠ "call" ∧
    (black_scholes 100 100 1 (1/20) (1/5) "x" = black_scholes 100 100 1 (1/20) (1/5) "put" ∧
     (calculate_greeks 100 100 1 (1/20) (1/5) "x").1 =
       (calculate_greeks 100 100 1 (1/20) (1/5) "put").1 ∧
     (("x" : String) ≠ "put" →
       (calculate_greeks 100 100 1 (1/20) (1/5) "x").2.2 =
         (calculate_greeks 100 100 1 (1/20) (1/5) "call").2.2)) :=
  ⟨by decide,
   non_call_strings_treated_as_put_except_theta 100 100 1 (1/20) (1/5) "x" (by decide)⟩
